import Mathlib

/-!
Formal model of the routing module of the flama web framework
(`src/flama/routing.py`): route registration, signature introspection and
route resolution.  Python dictionaries are modelled as insertion-ordered
association lists, Python values that may be `None` as `Option`, and the
recursive traversals of the source (component expansion, mount recursion)
are totalised with an explicit recursion bound that call sites choose
large enough; the bound is only reached on inputs where the Python source
itself would not terminate.
-/

set_option maxHeartbeats 1000000
set_option autoImplicit false

namespace Flama

/-- Concrete Python values that can appear as a handler parameter default
(`inspect.Parameter.default`) or as a marshmallow `missing` value.
`noneV` is Python's `None`; an absent default (`inspect.Parameter.empty`)
is modelled as `Option.none` at the use sites. -/
inductive Val where
  | noneV
  | intV (n : Int)
  | strV (s : String)
  | boolV (b : Bool)
deriving DecidableEq, Repr

/-- Handler parameter annotations as classified by `routing.py`:
the primitive types keyed in `PATH_SCHEMA_MAPPING` / `QUERY_SCHEMA_MAPPING`
(`inspect.Signature.empty`, `int`, `float`, `str`, `bool`, the `Opt*`
aliases, `http.PathParam`, `http.QueryParam`), marshmallow schema classes,
marshmallow-dataclass wrappers, and anything else. -/
inductive Ann where
  | empty
  | int
  | float
  | str
  | bool
  | optInt
  | optFloat
  | optBool
  | optStr
  | pathParamT
  | queryParamT
  | schemaA (s : String)
  | dataclassA (s : String)
  | other (s : String)
deriving DecidableEq, Repr

/-- Marshmallow field classes used as values of the two schema mappings. -/
inductive SchemaKind where
  | integer
  | number
  | strK
  | boolean
deriving DecidableEq, Repr

/-- Result of calling a value of the schema mappings: the
`inspect.Signature.empty` key maps to `lambda *args, **kwargs: None`
(`noneS`); the marshmallow field classes produce a field object carrying
the `required` and `missing` keyword arguments (`fieldS`); body fields
carry an instantiated user schema (`user`). -/
inductive MarshSchema where
  | noneS
  | fieldS (kind : SchemaKind) (required : Bool) (missing : Option Val)
  | user (tag : String)
deriving DecidableEq, Repr

/-- Modelled from the spec: `flama.types.FieldLocation`, outside `src/`. -/
inductive FieldLocation where
  | path
  | query
  | body
deriving DecidableEq, Repr

/-- Modelled from the spec: `flama.types.Field`, outside `src/` — plain
data describing one handler input: name, location, validation schema,
required flag.  `required` is `false` when the construction site passes no
`required` argument (the body-field sites). -/
structure Field where
  name : String
  location : FieldLocation
  schema : MarshSchema
  required : Bool
deriving DecidableEq, Repr

/-- One entry of `inspect.signature(handler).parameters`: the parameter
name, its annotation and its default (`none` = `inspect.Parameter.empty`). -/
structure Param where
  name : String
  annot : Ann
  default : Option Val
deriving DecidableEq, Repr

/-- The reflection data `routing.py` reads off a handler: its signature
(parameters and return annotation), the `_request_schemas` /
`_response_schema` attributes (absent or `None` modelled as `none`) and
its `__name__`. -/
structure HandlerSig where
  params : List Param
  returnAnn : Ann
  requestSchemas : Option (List (String × Ann))
  responseSchema : Option Ann
  fname : String
deriving DecidableEq, Repr

/-- Modelled from the spec: `flama.components.Component`, outside `src/` —
a capability check `can_handle_parameter(parameter) -> bool` plus a
`resolve` callable; `routing.py` only inspects the parameter list of
`resolve`, kept here as `resolve_params`. -/
structure Comp where
  can_handle_parameter : Param → Bool
  resolve_params : List Param

/-! Insertion-ordered association lists standing for Python dicts.
`dset` is `d[k] = v`, `dupdate` is `d.update(other)`, `dget` is
`d.get(k)`. -/

def dget {α : Type} : List (String × α) → String → Option α
  | [], _ => none
  | (k0, v) :: rest, k => if k0 = k then some v else dget rest k

def dset {α : Type} : List (String × α) → String → α → List (String × α)
  | [], k, v => [(k, v)]
  | (k0, v0) :: rest, k, v =>
    if k0 = k then (k, v) :: rest else (k0, v0) :: dset rest k v

def dupdate {α : Type} : List (String × α) → List (String × α) → List (String × α)
  | d, [] => d
  | d, (k, v) :: rest => dupdate (dset d k v) rest

theorem dget_dset_self {α : Type} (d : List (String × α)) (k : String) (v : α) :
    dget (dset d k v) k = some v := by
  induction d with
  | nil => simp [dget, dset]
  | cons kv rest ih =>
    obtain ⟨k0, v0⟩ := kv
    by_cases h : k0 = k
    · simp [dset, dget, h]
    · simp [dset, dget, h, ih]

theorem dget_dset_ne {α : Type} (d : List (String × α)) (k k' : String) (v : α)
    (h : k' ≠ k) : dget (dset d k v) k' = dget d k' := by
  have h' : ¬(k = k') := fun hh => h hh.symm
  induction d with
  | nil => simp [dget, dset, h']
  | cons kv rest ih =>
    obtain ⟨k0, v0⟩ := kv
    by_cases h0 : k0 = k
    · subst h0
      simp [dset, dget, h']
    · simp [dset, dget, h0, ih]

theorem dget_eq_none_of_not_mem {α : Type} (d : List (String × α)) (k : String)
    (h : k ∉ d.map Prod.fst) : dget d k = none := by
  induction d with
  | nil => rfl
  | cons kv rest ih =>
    obtain ⟨k0, v0⟩ := kv
    simp only [List.map_cons, List.mem_cons] at h
    push_neg at h
    have h1 : ¬(k0 = k) := fun hh => h.1 hh.symm
    simp [dget, h1, ih h.2]

theorem mem_keys_dset {α : Type} (d : List (String × α)) (k k' : String) (v : α) :
    k' ∈ (dset d k v).map Prod.fst ↔ k' ∈ d.map Prod.fst ∨ k' = k := by
  induction d with
  | nil => simp [dset]
  | cons kv rest ih =>
    obtain ⟨k0, v0⟩ := kv
    by_cases h : k0 = k
    · subst h
      simp [dset, List.mem_cons]
      tauto
    · simp [dset, h, List.mem_cons, ih]
      tauto

theorem keys_nodup_dset {α : Type} (d : List (String × α)) (k : String) (v : α)
    (h : (d.map Prod.fst).Nodup) : ((dset d k v).map Prod.fst).Nodup := by
  induction d with
  | nil => simp [dset]
  | cons kv rest ih =>
    obtain ⟨k0, v0⟩ := kv
    simp only [List.map_cons, List.nodup_cons] at h
    by_cases h0 : k0 = k
    · subst h0
      have e : dset ((k0, v0) :: rest) k0 v = (k0, v) :: rest := by
        simp [dset]
      rw [e]
      simp only [List.map_cons, List.nodup_cons]
      exact ⟨h.1, h.2⟩
    · have e : dset ((k0, v0) :: rest) k v = (k0, v0) :: dset rest k v := by
        simp [dset, h0]
      rw [e]
      simp only [List.map_cons, List.nodup_cons]
      refine ⟨?_, ih h.2⟩
      intro hm
      rcases (mem_keys_dset rest k k0 v).1 hm with hm1 | hm1
      · exact h.1 hm1
      · exact h0 hm1

theorem dget_dupdate {α : Type} (d other : List (String × α)) (k : String)
    (hn : (other.map Prod.fst).Nodup) :
    dget (dupdate d other) k =
      match dget other k with
      | some v => some v
      | none => dget d k := by
  induction other generalizing d with
  | nil => simp [dupdate, dget]
  | cons kv rest ih =>
    obtain ⟨k0, v0⟩ := kv
    simp only [List.map_cons, List.nodup_cons] at hn
    rw [show dupdate d ((k0, v0) :: rest) = dupdate (dset d k0 v0) rest from rfl]
    rw [ih _ hn.2]
    by_cases h : k0 = k
    · subst h
      have hr : dget rest k0 = none := dget_eq_none_of_not_mem _ _ hn.1
      simp [dget, hr, dget_dset_self]
    · have hne : k ≠ k0 := fun hh => h hh.symm
      simp [dget, h, dget_dset_ne _ _ _ _ hne]

theorem keys_nodup_dupdate {α : Type} (d other : List (String × α))
    (h : (d.map Prod.fst).Nodup) : ((dupdate d other).map Prod.fst).Nodup := by
  induction other generalizing d with
  | nil => exact h
  | cons kv rest ih =>
    rw [show dupdate d (kv :: rest) = dupdate (dset d kv.1 kv.2) rest from rfl]
    exact ih _ (keys_nodup_dset _ _ _ h)

/-! ## Signature introspection (`FieldsMixin`, routing.py lines 55-146) -/

/-- Embedding of `FieldsMixin._get_parameters_from_handler` (lines 77-90):
walk the handler's parameters in signature order; the first component whose
`can_handle_parameter` accepts a parameter owns it, and the parameters of
that component's `resolve` are collected recursively in its place
(`parameters.update(...)`); an unclaimed parameter is stored under its name
(`parameters[name] = parameter`).  The Python recursion has no bound and
diverges on cyclic component chains; `fuel` totalises it and is chosen
large enough by callers. -/
def get_parameters_from_handler (comps : List Comp) :
    Nat → List Param → List (String × Param)
  | 0, _ => []
  | fuel + 1, params =>
    params.foldl
      (fun acc p =>
        match comps.find? (fun c => c.can_handle_parameter p) with
        | some c => dupdate acc (get_parameters_from_handler comps fuel c.resolve_params)
        | none => dset acc p.name p)
      []

/-- Embedding of `PATH_SCHEMA_MAPPING` lookup plus the `KeyError` fallback
to `marshmallow.fields.String` (lines 111-115), already applied to the
`required=True` keyword argument of line 118. -/
def pathSchema : Ann → MarshSchema
  | .empty => .noneS
  | .int => .fieldS .integer true none
  | .float => .fieldS .number true none
  | .str => .fieldS .strK true none
  | .bool => .fieldS .boolean true none
  | .pathParamT => .fieldS .strK true none
  | _ => .fieldS .strK true none

/-- Membership in `QUERY_SCHEMA_MAPPING` (lines 41-52). -/
def queryMapped : Ann → Bool
  | .empty | .int | .float | .bool | .str => true
  | .optInt | .optFloat | .optBool | .optStr => true
  | .queryParamT => true
  | _ => false

/-- Whether the annotation is one of the `Opt*` aliases tested on
line 122. -/
def optAnnot : Ann → Bool
  | .optInt | .optFloat | .optBool | .optStr => true
  | _ => false

/-- Calling `QUERY_SCHEMA_MAPPING[annotation](**kwargs)` (line 132) with
the `required` / `missing` keyword arguments assembled on lines 122-127;
the `inspect.Signature.empty` entry ignores its arguments and returns
`None`.  The catch-all arm is never reached from `classify_params`, which
guards with `queryMapped`. -/
def querySchema (a : Ann) (required : Bool) (missing : Option Val) : MarshSchema :=
  match a with
  | .empty => .noneS
  | .int => .fieldS .integer required missing
  | .float => .fieldS .number required missing
  | .bool => .fieldS .boolean required missing
  | .str => .fieldS .strK required missing
  | .optInt => .fieldS .integer required missing
  | .optFloat => .fieldS .number required missing
  | .optBool => .fieldS .boolean required missing
  | .optStr => .fieldS .strK required missing
  | .queryParamT => .fieldS .strK required missing
  | _ => .noneS

/-- The per-name schema override of lines 103-106: if `request_schemas`
maps the parameter name to a schema, replace the parameter's annotation
(`param.replace(annotation=schema_override)`); the default is untouched. -/
def withOverride (reqSchemas : List (String × Ann)) (name : String) (param0 : Param) :
    Param :=
  match dget reqSchemas name with
  | some ov => { param0 with annot := ov }
  | none => param0

/-- Modelled from the spec: `flama.utils.is_marshmallow_schema`, outside
`src/` — whether the annotation is a marshmallow schema class. -/
def isSchemaAnn : Ann → Bool
  | .schemaA _ => true
  | _ => false

/-- Modelled from the spec: `flama.utils.is_marshmallow_dataclass`,
outside `src/` — whether the annotation is a marshmallow-dataclass
wrapper. -/
def isDataclassAnn : Ann → Bool
  | .dataclassA _ => true
  | _ => false

/-- The schema instance a body field carries: `param.annotation()` for a
schema class, `param.annotation.Schema()` for a marshmallow-dataclass
(lines 137 and 140).  The catch-all arm is unreachable from
`classify_params`, which guards with `isSchemaAnn` / `isDataclassAnn`. -/
def bodySchemaOf : Ann → MarshSchema
  | .schemaA s => .user s
  | .dataclassA s => .user s
  | _ => .user ""

/-- Embedding of the classification loop of
`FieldsMixin._get_fields_from_handler` (lines 101-140) over the collected
parameters: apply the per-name schema override (lines 104-106), skip
`self`/`cls` (line 108), then classify as path field (lines 111-119),
query field (lines 121-134), or body field (lines 136-140; last write
wins), accumulating `query_fields`, `path_fields` and `body_field`. -/
def classify_params (pathNames : List String) (reqSchemas : List (String × Ann)) :
    List (String × Param) → List (String × Field) → List (String × Field) →
    Option Field → List (String × Field) × List (String × Field) × Option Field
  | [], q, p, b => (q, p, b)
  | (name, param0) :: rest, q, p, b =>
    let param := withOverride reqSchemas name param0
    if name = "self" ∨ name = "cls" then
      classify_params pathNames reqSchemas rest q p b
    else if name ∈ pathNames then
      classify_params pathNames reqSchemas rest q
        (dset p name
          { name := name, location := FieldLocation.path,
            schema := pathSchema param.annot, required := true }) b
    else if queryMapped param.annot then
      classify_params pathNames reqSchemas rest
        (dset q name
          (if optAnnot param.annot || param.default.isSome then
            { name := name, location := FieldLocation.query,
              schema := querySchema param.annot false (some (param.default.getD Val.noneV)),
              required := false }
          else
            { name := name, location := FieldLocation.query,
              schema := querySchema param.annot true none, required := true })) p b
    else if isSchemaAnn param.annot then
      classify_params pathNames reqSchemas rest q p
        (some { name := name, location := FieldLocation.body,
                schema := bodySchemaOf param.annot, required := false })
    else if isDataclassAnn param.annot then
      classify_params pathNames reqSchemas rest q p
        (some { name := name, location := FieldLocation.body,
                schema := bodySchemaOf param.annot, required := false })
    else
      classify_params pathNames reqSchemas rest q p b

/-- The four values returned by `_get_fields_from_handler` for one
handler. -/
structure FieldsOut where
  query_fields : List (String × Field)
  path_fields : List (String × Field)
  body_field : Option Field
  output_field : Ann
deriving DecidableEq, Repr

/-- Embedding of `FieldsMixin._get_fields_from_handler` (lines 92-146):
collect the handler's effective parameters through the component chain,
classify them against the route's compiled path-parameter names
(`self.param_convertors.keys()`, passed here as `pathNames`), and derive
the output field from `_response_schema` (falling back to the return
annotation), unwrapping a marshmallow-dataclass to its `.Schema` class. -/
def get_fields_from_handler (pathNames : List String) (comps : List Comp)
    (fuel : Nat) (h : HandlerSig) : FieldsOut :=
  let collected := get_parameters_from_handler comps fuel h.params
  let rs := h.requestSchemas.getD []
  let qpb := classify_params pathNames rs collected [] [] none
  let out0 :=
    match h.responseSchema with
    | some r0 => r0
    | none => h.returnAnn
  let out :=
    match out0 with
    | .dataclassA s => Ann.schemaA s
    | x => x
  { query_fields := qpb.1, path_fields := qpb.2.1, body_field := qpb.2.2,
    output_field := out }

/-! ## Route resolution (`Router.get_route_from_scope`, routing.py lines 386-415) -/

/-- The substrate's `Match` enumeration: `FULL`, `PARTIAL`, or no match. -/
inductive MatchResult where
  | full
  | part
  | noMatch
deriving DecidableEq, Repr

/-- The scope keys `get_route_from_scope` reads and writes.  A popped key
(`scope.pop("root_path", "")`) is modelled as the empty string, matching
every later read, all of which default to `""`. -/
structure Scope where
  path : String
  root_path : String
  method : String
  path_params : List (String × String)
deriving DecidableEq, Repr

/-- The child scope returned by a matcher: the subset of keys a match may
contribute; `scope.update(child_scope)` overwrites exactly the keys
present. -/
structure ChildScope where
  path : Option String
  root_path : Option String
  path_params : Option (List (String × String))
deriving DecidableEq, Repr

/-- `scope.update(child_scope)` restricted to the modelled keys. -/
def Scope.update (s : Scope) (c : ChildScope) : Scope :=
  { path := c.path.getD s.path,
    root_path := c.root_path.getD s.root_path,
    method := s.method,
    path_params := c.path_params.getD s.path_params }

/-- One entry of `Router.routes` as seen by `get_route_from_scope`: either
a (HTTP or websocket) route, or a `Mount` whose app is a sub-router with
its own entry list and not-found handler.  The path/method matcher
(`route.matches(scope)`) is delegated to the substrate and therefore kept
abstract as a function; `tag` models object identity. -/
inductive REntry where
  | route (matcher : Scope → MatchResult × ChildScope) (tag : Nat)
  | mountE (matcher : Scope → MatchResult × ChildScope) (sub : List REntry)
      (subNotFound : Nat) (tag : Nat)

/-- A `Router` for resolution purposes: its ordered entries and its
`not_found` handler (modelled by identity tag). -/
structure RouterR where
  routes : List REntry
  notFound : Nat

/-- What `get_route_from_scope` returns in first position: a route entry,
or the router's `not_found` handler. -/
inductive RTarget where
  | route (e : REntry)
  | handler (h : Nat)

/-- Scope mutation performed at the top of an iteration that inspects a
`Mount` entry (lines 391-394): `root_path` is popped, and when not already
inside a mount `path` is rewritten to `root_path + path`. -/
def mountScope (mounted : Bool) (scope : Scope) : Scope :=
  if mounted then { scope with root_path := "" }
  else { scope with root_path := "", path := scope.root_path ++ scope.path }

/-- Embedding of the loop of `Router.get_route_from_scope` (lines
386-415).  `pend` is the `partial`/`partial_scope` pair remembered for the
first PARTIAL match; a Mount entry first pops `root_path` and, when not
already inside a mount, rewrites `path` to `root_path + path`
(`mountScope`); a FULL match updates the scope and either returns the
route or recurses into the mounted sub-router with `mounted=True`,
prepending the popped `root_path` to the child's `root_path` when already
mounted.  When the loop ends the first remembered PARTIAL is applied to
the (final) scope, else `(self.not_found, None)` is returned.  `fuel`
decreases on every step and totalises the mount recursion; it is chosen
large enough by callers, and the fuel-exhausted result coincides with the
not-found result. -/
def resolveRoutes :
    Nat → Nat → Bool → List REntry → Scope → Option (REntry × ChildScope) →
    RTarget × Option Scope
  | 0, nf, _, _, _, _ => (.handler nf, none)
  | _ + 1, nf, _, [], scope, pend =>
    match pend with
    | some (e, cs) => (.route e, some (scope.update cs))
    | none => (.handler nf, none)
  | fuel + 1, nf, mounted, .route m tag :: rest, scope, pend =>
    match (m scope).1 with
    | .full => (.route (.route m tag), some (scope.update (m scope).2))
    | .part =>
      match pend with
      | none => resolveRoutes fuel nf mounted rest scope (some (.route m tag, (m scope).2))
      | some _ => resolveRoutes fuel nf mounted rest scope pend
    | .noMatch => resolveRoutes fuel nf mounted rest scope pend
  | fuel + 1, nf, mounted, .mountE m sub snf tag :: rest, scope, pend =>
    match (m (mountScope mounted scope)).1 with
    | .full =>
      let scope2 := (mountScope mounted scope).update (m (mountScope mounted scope)).2
      let scope3 :=
        if mounted then
          { scope2 with
            root_path := scope.root_path ++ ((m (mountScope mounted scope)).2.root_path.getD "") }
        else scope2
      resolveRoutes fuel snf true sub scope3 none
    | .part =>
      match pend with
      | none =>
        resolveRoutes fuel nf mounted rest (mountScope mounted scope)
          (some (.mountE m sub snf tag, (m (mountScope mounted scope)).2))
      | some _ => resolveRoutes fuel nf mounted rest (mountScope mounted scope) pend
    | .noMatch => resolveRoutes fuel nf mounted rest (mountScope mounted scope) pend

/-- `Router.get_route_from_scope(scope, mounted=False)` with an explicit
recursion bound. -/
def RouterR.get_route_from_scope (fuel : Nat) (r : RouterR) (scope : Scope)
    (mounted : Bool) : RTarget × Option Scope :=
  resolveRoutes fuel r.notFound mounted r.routes scope none

/-- Instrument for stating claims about the loop: does some iteration of
`get_route_from_scope` report a FULL match?  The scope evolves exactly as
in `resolveRoutes` (Mount entries pop `root_path` and rewrite `path`). -/
def hasFullMatch (mounted : Bool) : List REntry → Scope → Bool
  | [], _ => false
  | .route m _ :: rest, scope =>
    match (m scope).1 with
    | .full => true
    | _ => hasFullMatch mounted rest scope
  | .mountE m _ _ _ :: rest, scope =>
    match (m (mountScope mounted scope)).1 with
    | .full => true
    | _ => hasFullMatch mounted rest (mountScope mounted scope)

/-- Instrument for stating claims about the loop: every iteration of
`get_route_from_scope` reports neither FULL nor PARTIAL. -/
def allNoMatch (mounted : Bool) : List REntry → Scope → Bool
  | [], _ => true
  | .route m _ :: rest, scope =>
    match (m scope).1 with
    | .noMatch => allNoMatch mounted rest scope
    | _ => false
  | .mountE m _ _ _ :: rest, scope =>
    match (m (mountScope mounted scope)).1 with
    | .noMatch => allNoMatch mounted rest (mountScope mounted scope)
    | _ => false

/-- Modelled from the spec: the ASGI substrate's `Mount` path matcher,
outside `src/` — FULL when the mount path is a prefix of the scope's path;
the child scope strips the prefix off `path` and appends it to
`root_path`. -/
def mountMatcher (pfx : String) (s : Scope) : MatchResult × ChildScope :=
  if pfx.data.isPrefixOf s.path.data then
    (.full,
      { path := some (String.mk (s.path.data.drop pfx.data.length)),
        root_path := some (s.root_path ++ pfx),
        path_params := some s.path_params })
  else (.noMatch, { path := none, root_path := none, path_params := none })

/-- Modelled from the spec: the ASGI substrate's `Route` path/method
matcher, outside `src/` — FULL when the path matches and the method is
allowed, PARTIAL when only the path matches. -/
def routeMatcher (path : String) (methods : List String) (s : Scope) :
    MatchResult × ChildScope :=
  if s.path = path then
    if s.method ∈ methods then
      (.full, { path := none, root_path := none, path_params := some [] })
    else (.part, { path := none, root_path := none, path_params := some [] })
  else (.noMatch, { path := none, root_path := none, path_params := none })

/-! ## Claims C1, C6, C8: route resolution -/

/-- Claim C1: a FULL match found while iterating in registration order
takes precedence over every remembered PARTIAL match — the remembered
partial never influences the result when some iteration reports FULL —
and in particular for routes `R1` (PARTIAL) followed by `R2` (FULL),
`get_route_from_scope` returns `R2` with the updated scope, not `R1`. -/
theorem router_full_match_precedence :
    (∀ (fuel nf : Nat) (mounted : Bool) (routes : List REntry) (scope : Scope)
        (pend : Option (REntry × ChildScope)),
      hasFullMatch mounted routes scope = true →
      resolveRoutes fuel nf mounted routes scope pend =
        resolveRoutes fuel nf mounted routes scope none) ∧
    (∀ (fuel nf : Nat) (mounted : Bool) (m1 m2 : Scope → MatchResult × ChildScope)
        (t1 t2 : Nat) (scope : Scope) (cs1 cs2 : ChildScope),
      m1 scope = (.part, cs1) → m2 scope = (.full, cs2) →
      RouterR.get_route_from_scope (fuel + 1 + 1) ⟨[.route m1 t1, .route m2 t2], nf⟩
          scope mounted =
        (.route (.route m2 t2), some (scope.update cs2))) := by
  constructor
  · intro fuel nf mounted routes scope pend h
    induction routes generalizing fuel scope pend with
    | nil => simp [hasFullMatch] at h
    | cons e rest ih =>
      cases fuel with
      | zero => rfl
      | succ f =>
        cases e with
        | route m tag =>
          cases hm : (m scope).1 with
          | full => simp [resolveRoutes, hm]
          | part =>
            simp only [hasFullMatch, hm] at h
            cases pend with
            | none => rfl
            | some x =>
              simp only [resolveRoutes, hm]
              rw [ih f scope (some x) h,
                ih f scope (some (REntry.route m tag, (m scope).2)) h]
          | noMatch =>
            simp only [hasFullMatch, hm] at h
            cases pend with
            | none => rfl
            | some x =>
              simp only [resolveRoutes, hm]
              rw [ih f scope (some x) h]
        | mountE m sub snf tag =>
          cases hm : (m (mountScope mounted scope)).1 with
          | full => simp [resolveRoutes, hm]
          | part =>
            simp only [hasFullMatch, hm] at h
            cases pend with
            | none => rfl
            | some x =>
              simp only [resolveRoutes, hm]
              rw [ih f (mountScope mounted scope) (some x) h,
                ih f (mountScope mounted scope)
                  (some (REntry.mountE m sub snf tag, (m (mountScope mounted scope)).2)) h]
          | noMatch =>
            simp only [hasFullMatch, hm] at h
            cases pend with
            | none => rfl
            | some x =>
              simp only [resolveRoutes, hm]
              rw [ih f (mountScope mounted scope) (some x) h]
  · intro fuel nf mounted m1 m2 t1 t2 scope cs1 cs2 h1 h2
    simp [RouterR.get_route_from_scope, resolveRoutes, h1, h2]

/-- Partial-matching route entry used to instantiate claim C1. -/
def c1m1 : Scope → MatchResult × ChildScope :=
  fun _ => (.part, ⟨none, none, some []⟩)

/-- Fully-matching route entry used to instantiate claim C1. -/
def c1m2 : Scope → MatchResult × ChildScope :=
  fun _ => (.full, ⟨none, none, some []⟩)

/-- Request scope used to instantiate claim C1. -/
def c1scope : Scope := ⟨"/x", "", "GET", []⟩

/-- Witness for claim C1 at a concrete router and scope. -/
theorem router_full_match_precedence_w :
    (resolveRoutes 9 7 false [.route c1m1 1, .route c1m2 2] c1scope
        (some (.route c1m1 1, ⟨none, none, some []⟩)) =
      resolveRoutes 9 7 false [.route c1m1 1, .route c1m2 2] c1scope none) ∧
    RouterR.get_route_from_scope (7 + 1 + 1) ⟨[.route c1m1 1, .route c1m2 2], 7⟩
        c1scope false =
      (.route (.route c1m2 2), some (c1scope.update ⟨none, none, some []⟩)) :=
  ⟨router_full_match_precedence.1 9 7 false [.route c1m1 1, .route c1m2 2] c1scope
      (some (.route c1m1 1, ⟨none, none, some []⟩)) (by rfl),
   router_full_match_precedence.2 7 7 false c1m1 c1m2 1 2 c1scope
      ⟨none, none, some []⟩ ⟨none, none, some []⟩ (by rfl) (by rfl)⟩

/-- Claim C8: when no entry produces a FULL or PARTIAL match anywhere,
`get_route_from_scope` returns the router's configured not-found handler
paired with no scope, instead of raising. -/
theorem router_no_match_not_found :
    ∀ (fuel : Nat) (r : RouterR) (scope : Scope) (mounted : Bool),
      allNoMatch mounted r.routes scope = true →
      r.get_route_from_scope fuel scope mounted = (.handler r.notFound, none) := by
  have key : ∀ (routes : List REntry) (fuel nf : Nat) (mounted : Bool) (scope : Scope),
      allNoMatch mounted routes scope = true →
      resolveRoutes fuel nf mounted routes scope none = (.handler nf, none) := by
    intro routes
    induction routes with
    | nil =>
      intro fuel nf mounted scope _
      cases fuel with
      | zero => rfl
      | succ f => rfl
    | cons e rest ih =>
      intro fuel nf mounted scope h
      cases fuel with
      | zero => rfl
      | succ f =>
        cases e with
        | route m tag =>
          cases hm : (m scope).1 with
          | full => simp [allNoMatch, hm] at h
          | part => simp [allNoMatch, hm] at h
          | noMatch =>
            simp only [allNoMatch, hm] at h
            simp only [resolveRoutes, hm]
            exact ih f nf mounted scope h
        | mountE m sub snf tag =>
          cases hm : (m (mountScope mounted scope)).1 with
          | full => simp [allNoMatch, hm] at h
          | part => simp [allNoMatch, hm] at h
          | noMatch =>
            simp only [allNoMatch, hm] at h
            simp only [resolveRoutes, hm]
            exact ih f nf mounted (mountScope mounted scope) h
  intro fuel r scope mounted h
  exact key r.routes fuel r.notFound mounted scope h

/-- Router used to instantiate claim C8: one plain route and one mount,
neither matching the request path. -/
def c8router : RouterR :=
  ⟨[.route (routeMatcher "/x" ["GET"]) 1,
    .mountE (mountMatcher "/mnt") [.route (routeMatcher "/sub" ["GET"]) 2] 88 3], 44⟩

/-- Witness for claim C8 at a concrete router and scope. -/
theorem router_no_match_not_found_w :
    c8router.get_route_from_scope 9 ⟨"/absent", "", "GET", []⟩ false =
      (.handler 44, none) :=
  router_no_match_not_found 9 c8router ⟨"/absent", "", "GET", []⟩ false (by rfl)

/-- Inner route of the mounted sub-router used to instantiate claim C6. -/
def c6inner : REntry := .route (routeMatcher "/sub" ["GET"]) 10

/-- Router with a sub-router mounted at `/mnt` containing route `/sub`,
used to instantiate claim C6. -/
def c6router : RouterR := ⟨[.mountE (mountMatcher "/mnt") [c6inner] 99 1], 0⟩

/-- Claim C6: a request for `/mnt/sub` against a router that mounts at
`/mnt` a sub-router containing route `/sub` resolves to that inner route
together with the sub-router's own final scope, and across two nested
mounts the resulting scope's `root_path` is the concatenation of the two
levels' root paths (the root path each mount match reports, prepended in
turn by the recursion). -/
theorem router_mount_nesting_root_path :
    (c6router.get_route_from_scope 5 ⟨"/mnt/sub", "", "GET", []⟩ false =
      (.route c6inner, some ⟨"/sub", "/mnt", "GET", []⟩)) ∧
    (∀ (fuel nf0 nf1 nf2 t1 t2 t3 : Nat)
        (m1 m2 mr : Scope → MatchResult × ChildScope)
        (cs1 cs2 cs3 : ChildScope) (s0 : Scope),
      m1 (mountScope false s0) = (.full, cs1) →
      m2 (mountScope true (Scope.update (mountScope false s0) cs1)) = (.full, cs2) →
      mr { Scope.update (mountScope true (Scope.update (mountScope false s0) cs1)) cs2
            with root_path :=
              (Scope.update (mountScope false s0) cs1).root_path ++
                cs2.root_path.getD "" } = (.full, cs3) →
      cs3.root_path = none →
      ∃ sOut : Scope,
        RouterR.get_route_from_scope (fuel + 1 + 1 + 1)
            ⟨[.mountE m1 [.mountE m2 [.route mr t3] nf2 t2] nf1 t1], nf0⟩ s0 false =
          (.route (.route mr t3), some sOut) ∧
        sOut.root_path = cs1.root_path.getD "" ++ cs2.root_path.getD "") := by
  constructor
  · rfl
  · intro fuel nf0 nf1 nf2 t1 t2 t3 m1 m2 mr cs1 cs2 cs3 s0 h1 h2 h3 h4
    refine ⟨Scope.update
        { Scope.update (mountScope true (Scope.update (mountScope false s0) cs1)) cs2
          with root_path :=
            (Scope.update (mountScope false s0) cs1).root_path ++
              cs2.root_path.getD "" } cs3, ?_, ?_⟩
    · simp [RouterR.get_route_from_scope, resolveRoutes, h1, h2, h3]
    · simp [Scope.update, mountScope, h4]

/-- Witness for claim C6's nested-mount conjunct: mounts `/a` and `/b`
with inner route `/c`; the final root path is `/a` ++ `/b`. -/
theorem router_mount_nesting_root_path_w :
    ∃ sOut : Scope,
      RouterR.get_route_from_scope (1 + 1 + 1 + 1)
          ⟨[.mountE (mountMatcher "/a")
              [.mountE (mountMatcher "/b") [.route (routeMatcher "/c" ["GET"]) 30] 98 20]
              97 11], 0⟩
          ⟨"/a/b/c", "", "GET", []⟩ false =
        (.route (.route (routeMatcher "/c" ["GET"]) 30), some sOut) ∧
      sOut.root_path =
        ((⟨some "/b/c", some "/a", some []⟩ : ChildScope).root_path.getD "") ++
          ((⟨some "/c", some "/b", some []⟩ : ChildScope).root_path.getD "") :=
  router_mount_nesting_root_path.2 1 0 97 98 11 20 30
    (mountMatcher "/a") (mountMatcher "/b") (routeMatcher "/c" ["GET"])
    ⟨some "/b/c", some "/a", some []⟩ ⟨some "/c", some "/b", some []⟩
    ⟨none, none, some []⟩ ⟨"/a/b/c", "", "GET", []⟩
    (by rfl) (by rfl) (by rfl) (by rfl)

/-! ## Claims C2, C3: field classification -/

/-- The keys of the parameter dict collected by
`_get_parameters_from_handler` are distinct, as for every Python dict. -/
theorem gpfh_keys_nodup (comps : List Comp) (fuel : Nat) (params : List Param) :
    ((get_parameters_from_handler comps fuel params).map Prod.fst).Nodup := by
  cases fuel with
  | zero => simp [get_parameters_from_handler]
  | succ f =>
    simp only [get_parameters_from_handler]
    have key : ∀ (ps : List Param) (acc : List (String × Param)),
        (acc.map Prod.fst).Nodup →
        ((ps.foldl
          (fun acc p =>
            match comps.find? (fun c => c.can_handle_parameter p) with
            | some c => dupdate acc (get_parameters_from_handler comps f c.resolve_params)
            | none => dset acc p.name p)
          acc).map Prod.fst).Nodup := by
      intro ps
      induction ps with
      | nil => intro acc h; exact h
      | cons p rest ih =>
        intro acc h
        simp only [List.foldl_cons]
        cases hf : comps.find? (fun c => c.can_handle_parameter p) with
        | none =>
          simp only [hf]
          exact ih _ (keys_nodup_dset _ _ _ h)
        | some c =>
          simp only [hf]
          exact ih _ (keys_nodup_dupdate _ _ h)
    exact key params [] (by simp)

/-- The schema override replaces only the annotation; the parameter's
default survives. -/
theorem withOverride_default (rs : List (String × Ann)) (n : String) (p : Param) :
    (withOverride rs n p).default = p.default := by
  unfold withOverride
  cases dget rs n <;> rfl

/-- Every occurrence of a non-`self`/`cls` parameter whose name is a
compiled path parameter writes a required path field, so once such a name
is pending in the parameter list or already recorded in the accumulator,
the final `path_fields` holds a required path field for it. -/
theorem classify_path_lemma (pathNames : List String) (rs : List (String × Ann))
    (name : String) (hs : name ≠ "self") (hc : name ≠ "cls") (hp : name ∈ pathNames) :
    ∀ (l : List (String × Param)) (q p : List (String × Field)) (b : Option Field),
      ((∃ pr, dget l name = some pr) ∨
        (∃ fld, dget p name = some fld ∧ fld.location = FieldLocation.path ∧
          fld.required = true)) →
      ∃ fld, dget (classify_params pathNames rs l q p b).2.1 name = some fld ∧
        fld.location = FieldLocation.path ∧ fld.required = true := by
  intro l
  induction l with
  | nil =>
    intro q p b h
    rcases h with ⟨pr, hpr⟩ | hacc
    · simp [dget] at hpr
    · exact hacc
  | cons hd rest ih =>
    intro q p b h
    obtain ⟨n, pr0⟩ := hd
    by_cases hn : n = name
    · subst hn
      have hsc : ¬(n = "self" ∨ n = "cls") := by
        rintro (rfl | rfl)
        · exact hs rfl
        · exact hc rfl
      simp only [classify_params]
      rw [if_neg hsc, if_pos hp]
      exact ih q _ b (Or.inr ⟨_, dget_dset_self _ _ _, rfl, rfl⟩)
    · have hd2 : dget ((n, pr0) :: rest) name = dget rest name := by
        simp [dget, hn]
      have htr : (∃ pr, dget rest name = some pr) ∨
          (∃ fld, dget p name = some fld ∧ fld.location = FieldLocation.path ∧
            fld.required = true) := by
        rcases h with ⟨pr, hpr⟩ | hacc
        · exact Or.inl ⟨pr, by rw [← hd2]; exact hpr⟩
        · exact Or.inr hacc
      simp only [classify_params]
      by_cases hsc : n = "self" ∨ n = "cls"
      · rw [if_pos hsc]
        exact ih q p b htr
      · rw [if_neg hsc]
        by_cases hpn : n ∈ pathNames
        · rw [if_pos hpn]
          refine ih q _ b ?_
          rcases htr with hl | ⟨fld, hfld, hloc, hreq⟩
          · exact Or.inl hl
          · refine Or.inr ⟨fld, ?_, hloc, hreq⟩
            rw [dget_dset_ne _ _ _ _ (fun hh => hn hh.symm)]
            exact hfld
        · rw [if_neg hpn]
          split_ifs <;> exact ih _ p _ htr

/-- Claim C2: a handler parameter (other than `self`/`cls`) that survives
component expansion and whose name matches a compiled path-parameter name
yields a path field with `required = true`, regardless of its default. -/
theorem path_param_field_required :
    ∀ (pathNames : List String) (comps : List Comp) (fuel : Nat) (h : HandlerSig)
      (name : String) (pr : Param),
      dget (get_parameters_from_handler comps fuel h.params) name = some pr →
      name ≠ "self" → name ≠ "cls" → name ∈ pathNames →
      ∃ fld,
        dget (get_fields_from_handler pathNames comps fuel h).path_fields name =
          some fld ∧
        fld.location = FieldLocation.path ∧ fld.required = true := by
  intro pathNames comps fuel h name pr hin hs hc hp
  simp only [get_fields_from_handler]
  exact classify_path_lemma pathNames (h.requestSchemas.getD []) name hs hc hp
    (get_parameters_from_handler comps fuel h.params) [] [] none (Or.inl ⟨pr, hin⟩)

/-- Handler used to instantiate claim C2: the path-named parameter also
declares a default value. -/
def c2handler : HandlerSig := ⟨[⟨"id", .int, some (.intV 5)⟩], .empty, none, none, "h"⟩

/-- Witness for claim C2 at a concrete handler. -/
theorem path_param_field_required_w :
    ∃ fld,
      dget (get_fields_from_handler ["id"] [] 1 c2handler).path_fields "id" = some fld ∧
      fld.location = FieldLocation.path ∧ fld.required = true :=
  path_param_field_required ["id"] [] 1 c2handler "id" ⟨"id", .int, some (.intV 5)⟩
    (by rfl) (by decide) (by decide) (by decide)

/-- The query field recorded for a parameter classified in the optional
branch of lines 121-134. -/
def queryFieldOpt (rs : List (String × Ann)) (name : String) (pr : Param) : Field :=
  { name := name, location := FieldLocation.query,
    schema := querySchema (withOverride rs name pr).annot false
      (some ((withOverride rs name pr).default.getD Val.noneV)),
    required := false }

/-- A non-`self`/`cls` parameter whose name is not a path parameter, whose
effective annotation is query-mapped, and which is optional (an `Opt*`
annotation or a present default) is recorded as exactly `queryFieldOpt`;
with distinct keys in the parameter list the record survives to the end. -/
theorem classify_query_lemma (pathNames : List String) (rs : List (String × Ann))
    (name : String) (pr : Param) (hs : name ≠ "self") (hc : name ≠ "cls")
    (hp : name ∉ pathNames)
    (hq : queryMapped (withOverride rs name pr).annot = true)
    (hopt : (optAnnot (withOverride rs name pr).annot ||
      (withOverride rs name pr).default.isSome) = true) :
    ∀ (l : List (String × Param)) (q p : List (String × Field)) (b : Option Field),
      (l.map Prod.fst).Nodup →
      (dget l name = some pr ∨
        (dget q name = some (queryFieldOpt rs name pr) ∧ dget l name = none)) →
      dget (classify_params pathNames rs l q p b).1 name =
        some (queryFieldOpt rs name pr) := by
  intro l
  induction l with
  | nil =>
    intro q p b _ h
    rcases h with hl | ⟨hql, _⟩
    · simp [dget] at hl
    · exact hql
  | cons hd rest ih =>
    intro q p b hnod h
    obtain ⟨n, pr0⟩ := hd
    simp only [List.map_cons, List.nodup_cons] at hnod
    by_cases hn : n = name
    · subst hn
      have hpr : pr0 = pr := by
        rcases h with hl | ⟨_, hnone⟩
        · simpa [dget] using hl
        · simp [dget] at hnone
      subst hpr
      have hsc : ¬(n = "self" ∨ n = "cls") := by
        rintro (rfl | rfl)
        · exact hs rfl
        · exact hc rfl
      simp only [classify_params]
      rw [if_neg hsc, if_neg hp, if_pos hq, if_pos hopt]
      refine ih _ p b hnod.2 (Or.inr ⟨?_, ?_⟩)
      · exact dget_dset_self _ _ _
      · exact dget_eq_none_of_not_mem _ _ hnod.1
    · have hd2 : dget ((n, pr0) :: rest) name = dget rest name := by
        simp [dget, hn]
      have htr : dget rest name = some pr ∨
          (dget q name = some (queryFieldOpt rs name pr) ∧ dget rest name = none) := by
        rcases h with hl | ⟨hql, hnone⟩
        · exact Or.inl (by rw [← hd2]; exact hl)
        · exact Or.inr ⟨hql, by rw [← hd2]; exact hnone⟩
      simp only [classify_params]
      by_cases hsc : n = "self" ∨ n = "cls"
      · rw [if_pos hsc]
        exact ih q p b hnod.2 htr
      · rw [if_neg hsc]
        by_cases hpn : n ∈ pathNames
        · rw [if_pos hpn]
          exact ih q _ b hnod.2 htr
        · rw [if_neg hpn]
          by_cases hqm : queryMapped (withOverride rs n pr0).annot = true
          · rw [if_pos hqm]
            refine ih _ p b hnod.2 ?_
            rcases htr with hl | ⟨hql, hnone⟩
            · exact Or.inl hl
            · refine Or.inr ⟨?_, hnone⟩
              rw [dget_dset_ne _ _ _ _ (fun hh => hn hh.symm)]
              exact hql
          · rw [if_neg hqm]
            split_ifs <;> exact ih q p _ hnod.2 htr

/-- Handler used for the counterexample to claim C3: a single parameter
named `x` annotated `OptInt`, on a route whose compiled path parameters
are `["x"]`. -/
def c3handler : HandlerSig := ⟨[⟨"x", .optInt, none⟩], .empty, none, none, "h"⟩

/-- Counterexample to claim C3 as stated: for the `OptInt`-annotated
parameter `x` of `c3handler`, the introspector produces no query field at
all — the name matches a compiled path parameter, so the parameter is
classified as a path field with `required = true` instead. -/
theorem query_optional_claim_cex :
    dget (get_fields_from_handler ["x"] [] 1 c3handler).query_fields "x" = none ∧
    dget (get_fields_from_handler ["x"] [] 1 c3handler).path_fields "x" =
      some ⟨"x", FieldLocation.path, .fieldS .strK true none, true⟩ := by
  constructor
  · rfl
  · rfl

/-- Claim C3 (amended): for a handler parameter that survives component
expansion, is not `self`/`cls`, whose name does not match a compiled
path-parameter name, and whose effective (possibly overridden) annotation
is in the query mapping: if the annotation is an optional query type or
the parameter carries a non-empty default, the introspector produces a
query field with `required = false` whose schema is the query-mapped
schema carrying the parameter's default (`None` when absent) as its
missing value — the `Signature.empty` annotation yielding the `None`
schema, which carries nothing. -/
theorem query_optional_field_amended :
    ∀ (pathNames : List String) (comps : List Comp) (fuel : Nat) (h : HandlerSig)
      (name : String) (pr : Param),
      dget (get_parameters_from_handler comps fuel h.params) name = some pr →
      name ≠ "self" → name ≠ "cls" → name ∉ pathNames →
      queryMapped (withOverride (h.requestSchemas.getD []) name pr).annot = true →
      (optAnnot (withOverride (h.requestSchemas.getD []) name pr).annot = true ∨
        pr.default.isSome = true) →
      dget (get_fields_from_handler pathNames comps fuel h).query_fields name =
        some
          { name := name, location := FieldLocation.query,
            schema := querySchema (withOverride (h.requestSchemas.getD []) name pr).annot
              false (some (pr.default.getD Val.noneV)),
            required := false } := by
  intro pathNames comps fuel h name pr hin hs hc hp hq hopt
  have hopt' : (optAnnot (withOverride (h.requestSchemas.getD []) name pr).annot ||
      (withOverride (h.requestSchemas.getD []) name pr).default.isSome) = true := by
    rcases hopt with h1 | h1
    · simp [h1]
    · simp [withOverride_default, h1]
  have key := classify_query_lemma pathNames (h.requestSchemas.getD []) name pr
    hs hc hp hq hopt' (get_parameters_from_handler comps fuel h.params) [] [] none
    (gpfh_keys_nodup comps fuel h.params) (Or.inl hin)
  simp only [get_fields_from_handler]
  rw [key, queryFieldOpt, withOverride_default]

/-- Handler used to instantiate the amended claim C3: an `OptInt`-typed
parameter without default and a `str`-typed parameter with default. -/
def c3whandler : HandlerSig :=
  ⟨[⟨"limit", .optInt, none⟩, ⟨"q", .str, some (.strV "d")⟩], .empty, none, none, "h"⟩

/-- Witness for the amended claim C3 at a concrete handler. -/
theorem query_optional_field_amended_w :
    dget (get_fields_from_handler [] [] 1 c3whandler).query_fields "limit" =
      some
        { name := "limit", location := FieldLocation.query,
          schema := querySchema (withOverride ((c3whandler.requestSchemas).getD [])
              "limit" ⟨"limit", .optInt, none⟩).annot
            false (some ((Option.none : Option Val).getD Val.noneV)),
          required := false } :=
  query_optional_field_amended [] [] 1 c3whandler "limit" ⟨"limit", .optInt, none⟩
    (by rfl) (by decide) (by decide) (by simp) (by rfl) (Or.inl (by rfl))

/-! ## Registration surface (`Route.__init__`, `Router.add_route` /
`add_websocket_route` / `mount` / `add_resource`, routing.py lines
149-161, 235-243, 279-345) -/

/-- `path.rstrip("/")`: strip every trailing slash. -/
def rstripSlashes (s : String) : String :=
  String.mk (((s.data.reverse).dropWhile (fun c => c = '/')).reverse)

/-- Modelled from the spec: the substrate's path compiler, outside `src/`
— scan of the parameter names appearing between braces in a path pattern,
a converter suffix after a colon excluded; an unterminated brace yields no
parameter.  `acc` holds the characters of the parameter currently being
read, in reverse. -/
def scanPath : List Char → Option (List Char) → List String
  | [], _ => []
  | c :: rest, none =>
    if c = Char.ofNat 123 then scanPath rest (some []) else scanPath rest none
  | c :: rest, some acc =>
    if c = Char.ofNat 125 then
      String.mk ((acc.reverse).takeWhile (fun d => d ≠ ':')) :: scanPath rest none
    else scanPath rest (some (c :: acc))

/-- The keys of `self.param_convertors` for a route compiled from `path`. -/
def compilePathParams (path : String) : List String := scanPath path.data none

/-- The keyword arguments a resource route's `_meta.kwargs` can forward to
`add_route`, with `add_route`'s defaults already applied. -/
structure RouteKwargs where
  include_in_schema : Bool
  status_code : Nat
  response_schema : Option Ann
  request_schemas : Option (List (String × Ann))
deriving DecidableEq, Repr

/-- A constructed `Route` (lines 149-161): path, name, methods, the
endpoint (with its mutated schema attributes), registration flags, and the
per-method field maps computed once at construction by `_get_fields`.  The
runtime endpoint wrapper (lines 163-232) is request-time behaviour and is
not part of this registration model; the default-methods fallback of lines
157-158 is not modelled (all claims pass methods explicitly). -/
structure BuiltRoute where
  path : String
  name : Option String
  methods : List String
  handler : HandlerSig
  include_in_schema : Bool
  status_code : Nat
  fields : List (String × FieldsOut)
deriving DecidableEq, Repr

/-- A constructed `WebSocketRoute` (lines 235-243): no methods or status
code; `_get_fields` uses the synthetic `[("GET", endpoint)]` pair. -/
structure BuiltWSRoute where
  path : String
  name : Option String
  handler : HandlerSig
  fields : List (String × FieldsOut)
deriving DecidableEq, Repr

/-- One entry of `Router.routes` on the registration side: a route, a
websocket route, or a `Mount` whose app is either a sub-router (its routes
and components inlined) or some other ASGI app (by identity tag). -/
inductive SEntry where
  | route (r : BuiltRoute)
  | ws (r : BuiltWSRoute)
  | mountRouter (path : String) (name : Option String) (subRoutes : List SEntry)
      (subComponents : List Comp)
  | mountOther (path : String) (name : Option String) (tag : Nat)

/-- A `Router` on the registration side: ordered entries plus the
component list handed to it at construction (lines 280-285). -/
structure RouterS where
  routes : List SEntry
  components : List Comp

/-- The `app` argument of `Router.mount`: a `Router` or any other ASGI
app. -/
inductive MountAppS where
  | routerApp (r : RouterS)
  | otherApp (tag : Nat)

/-- The exception `add_route` raises on line 305 when
`request_schemas` is `None` and the endpoint carries attached schemas
(`None.copy()` — `AttributeError`). -/
inductive RouteError where
  | attributeError
deriving DecidableEq, Repr

/-- `Route.__init__` for a function endpoint (lines 149-161): record the
arguments and compute the per-method field maps once, from the endpoint's
signature, the route path's compiled parameter names, and the router's
component list at this moment (`_get_fields`, lines 56-75: every method of
a function endpoint maps to the same handler). -/
def buildRoute (fuel : Nat) (path : String) (ep : HandlerSig) (methods : List String)
    (comps : List Comp) (include_in_schema : Bool) (status_code : Nat)
    (name : Option String) : BuiltRoute :=
  { path := path, name := name, methods := methods, handler := ep,
    include_in_schema := include_in_schema, status_code := status_code,
    fields := methods.map
      (fun m => (m, get_fields_from_handler (compilePathParams path) comps fuel ep)) }

/-- The schema-merging prelude of `add_route` (lines 298-309): when the
endpoint carries a non-empty `_request_schemas` dict, copy the caller's
dict and update it with the attached one (attached entries win), raising
`AttributeError` when the caller passed `None` (`None.copy()`); otherwise
overwrite the attribute with the caller's argument as-is. -/
def mergeRequestSchemas (ep : HandlerSig)
    (request_schemas : Option (List (String × Ann))) : Except RouteError HandlerSig :=
  match ep.requestSchemas with
  | some att =>
    if att = [] then .ok { ep with requestSchemas := request_schemas }
    else
      match request_schemas with
      | none => .error .attributeError
      | some base => .ok { ep with requestSchemas := some (dupdate base att) }
  | none => .ok { ep with requestSchemas := request_schemas }

/-- `Router.add_route` (lines 287-323): merge schema overrides (possibly
raising), set `_response_schema` when the endpoint has none, then build a
`Route` and append it. -/
def RouterS.add_route (r : RouterS) (fuel : Nat) (path : String) (ep : HandlerSig)
    (methods : List String) (name : Option String) (include_in_schema : Bool)
    (status_code : Nat) (response_schema : Option Ann)
    (request_schemas : Option (List (String × Ann))) : Except RouteError RouterS :=
  match mergeRequestSchemas ep request_schemas with
  | .error e => .error e
  | .ok ep1 =>
    let ep2 :=
      match ep1.responseSchema with
      | none => { ep1 with responseSchema := response_schema }
      | some _ => ep1
    .ok { r with routes := r.routes ++
      [.route (buildRoute fuel path ep2 methods r.components include_in_schema
        status_code name)] }

/-- `Router.add_websocket_route` (lines 325-326). -/
def RouterS.add_websocket_route (r : RouterS) (fuel : Nat) (path : String)
    (ep : HandlerSig) (name : Option String) : RouterS :=
  { r with routes := r.routes ++
    [.ws { path := path, name := name, handler := ep,
           fields := [("GET",
             get_fields_from_handler (compilePathParams path) r.components fuel ep)] }] }

/-- `Router.mount` (lines 339-345): when the app is a `Router`, its
component list is overwritten with the parent's; the mount path has its
trailing slashes stripped; the `Mount` entry holding the (possibly
mutated) app is appended.  Returns the updated parent and the updated
app. -/
def RouterS.mount (r : RouterS) (path : String) (app : MountAppS)
    (name : Option String) : RouterS × MountAppS :=
  let app2 :=
    match app with
    | .routerApp sub => MountAppS.routerApp { sub with components := r.components }
    | .otherApp t => .otherApp t
  let p := rstripSlashes path
  let entry :=
    match app2 with
    | .routerApp sub => SEntry.mountRouter p name sub.routes sub.components
    | .otherApp t => SEntry.mountOther p name t
  ({ r with routes := r.routes ++ [entry] }, app2)

/-- The `_meta` of one route declared on a resource. -/
structure ResourceMeta where
  path : String
  name : Option String
  methods : List String
  kwargs : RouteKwargs
deriving DecidableEq, Repr

/-- One named route declared on a resource: its `_meta` and the bound
handler (`getattr(resource, name)`); the declared function's `__name__` is
`handler.fname`. -/
structure ResourceRoute where
  meta : ResourceMeta
  handler : HandlerSig
deriving DecidableEq, Repr

/-- Modelled from the spec: `flama.resources.BaseResource`, outside `src/`
— a resource instance exposing `_meta.name` and its `routes` dict.  The
`inspect.isclass` branch of lines 330-331 merely instantiates a resource
class and is modelled by starting from the instance. -/
structure ResourceObj where
  name : String
  routes : List (String × ResourceRoute)
deriving DecidableEq, Repr

/-- The loop of `Router.add_resource` (lines 333-337): compose each path
as `path + resource._meta.name + route._meta.path`, derive the route name
(`route._meta.name`, else `"{resource-name}-{route.__name__}"`), and
register through `add_route` with the route's kwargs. -/
def addResourceRoutes (fuel : Nat) (pfxPath : String) (resName : String) :
    RouterS → List (String × ResourceRoute) → Except RouteError RouterS
  | r, [] => .ok r
  | r, (_, rr) :: rest =>
    let route_path := pfxPath ++ resName ++ rr.meta.path
    let rname :=
      match rr.meta.name with
      | some n => n
      | none => resName ++ "-" ++ rr.handler.fname
    match r.add_route fuel route_path rr.handler rr.meta.methods (some rname)
        rr.meta.kwargs.include_in_schema rr.meta.kwargs.status_code
        rr.meta.kwargs.response_schema rr.meta.kwargs.request_schemas with
    | .error e => .error e
    | .ok r1 => addResourceRoutes fuel pfxPath resName r1 rest

/-- `Router.add_resource` (lines 328-337). -/
def RouterS.add_resource (r : RouterS) (fuel : Nat) (path : String)
    (res : ResourceObj) : Except RouteError RouterS :=
  addResourceRoutes fuel path res.name r res.routes

/-- Path and name of a registered entry. -/
def SEntry.pathName : SEntry → String × Option String
  | .route b => (b.path, b.name)
  | .ws w => (w.path, w.name)
  | .mountRouter p n _ _ => (p, n)
  | .mountOther p n _ => (p, n)

/-- The field maps held by an entry (none for mounts). -/
def SEntry.fieldMaps : SEntry → Option (List (String × FieldsOut))
  | .route b => some b.fields
  | .ws w => some w.fields
  | .mountRouter _ _ _ _ => none
  | .mountOther _ _ _ => none

/-! ## Claims C4, C5, C7, C9, C10: registration surface -/

/-- Claim C5: `mount` appends a Mount entry whose path has every trailing
slash stripped; a mounted Router's component list becomes the parent's own
list (not a merge), so mounting the same sub-router under a second parent
leaves it with the last parent's components. -/
theorem mount_strips_and_shares_components :
    (∀ (r : RouterS) (path : String) (sub : RouterS) (name : Option String),
      (r.mount path (.routerApp sub) name).1.routes =
        r.routes ++ [.mountRouter (rstripSlashes path) name sub.routes r.components] ∧
      (r.mount path (.routerApp sub) name).2 =
        .routerApp { sub with components := r.components }) ∧
    (∀ (p : String), rstripSlashes (p ++ "/") = rstripSlashes p) ∧
    (∀ (p1 p2 : RouterS) (path1 path2 : String) (n1 n2 : Option String) (sub : RouterS),
      (p2.mount path2 ((p1.mount path1 (.routerApp sub) n1).2) n2).2 =
        .routerApp { sub with components := p2.components }) := by
  refine ⟨?_, ?_, ?_⟩
  · intro r path sub name
    exact ⟨rfl, rfl⟩
  · intro p
    have h1 : (p ++ "/").data = p.data ++ ['/'] := by
      rw [String.data_append]
    simp [rstripSlashes, h1]
  · intro p1 p2 path1 path2 n1 n2 sub
    rfl

/-- Claim C10: calling `add_route` with its default `request_schemas =
None` on an endpoint that already carries a non-empty `_request_schemas`
dict raises `AttributeError` (`None.copy()`) before any `Route` is built,
so no state is produced and the caller's route list is untouched. -/
theorem add_route_missing_schemas_attribute_error :
    ∀ (r : RouterS) (fuel : Nat) (path : String) (ep : HandlerSig)
      (methods : List String) (name : Option String) (inS : Bool) (status : Nat)
      (resp : Option Ann) (att : List (String × Ann)),
      ep.requestSchemas = some att → att ≠ [] →
      r.add_route fuel path ep methods name inS status resp none =
        .error .attributeError := by
  intro r fuel path ep methods name inS status resp att hatt hne
  simp [RouterS.add_route, mergeRequestSchemas, hatt, hne]

/-- Endpoint carrying an attached schema override, used to instantiate
claim C10. -/
def c10ep : HandlerSig := ⟨[], .empty, some [("a", .schemaA "Foo")], none, "h"⟩

/-- Witness for claim C10 at a concrete endpoint. -/
theorem add_route_missing_schemas_attribute_error_w :
    RouterS.add_route ⟨[], []⟩ 1 "/p" c10ep ["GET"] none true 200 none none =
      .error .attributeError :=
  add_route_missing_schemas_attribute_error ⟨[], []⟩ 1 "/p" c10ep ["GET"] none true 200
    none [("a", .schemaA "Foo")] rfl (by decide)

/-- Claim C7: `add_route` with explicit `request_schemas` on an endpoint
that carries non-empty attached overrides merges the two dicts, the
attached overrides winning for every name present in both and the
caller-supplied schemas used only for names without an attached override,
and then builds and appends a Route carrying the merged dict. -/
theorem add_route_schema_merge_precedence :
    ∀ (r : RouterS) (fuel : Nat) (path : String) (ep : HandlerSig)
      (methods : List String) (name : Option String) (inS : Bool) (status : Nat)
      (resp : Option Ann) (att base : List (String × Ann)),
      ep.requestSchemas = some att → att ≠ [] → (att.map Prod.fst).Nodup →
      ∃ ep2 : HandlerSig,
        r.add_route fuel path ep methods name inS status resp (some base) =
          .ok { r with routes := r.routes ++
            [.route (buildRoute fuel path ep2 methods r.components inS status name)] } ∧
        ep2.requestSchemas = some (dupdate base att) ∧
        (∀ k v, dget att k = some v → dget (dupdate base att) k = some v) ∧
        (∀ k, dget att k = none → dget (dupdate base att) k = dget base k) := by
  intro r fuel path ep methods name inS status resp att base hatt hne hnd
  have hwin : ∀ k v, dget att k = some v → dget (dupdate base att) k = some v := by
    intro k v hk
    rw [dget_dupdate _ _ _ hnd, hk]
  have hkeep : ∀ k, dget att k = none → dget (dupdate base att) k = dget base k := by
    intro k hk
    rw [dget_dupdate _ _ _ hnd, hk]
  cases hresp : ep.responseSchema with
  | none =>
    refine ⟨{ ep with requestSchemas := some (dupdate base att), responseSchema := resp },
      ?_, rfl, hwin, hkeep⟩
    simp [RouterS.add_route, mergeRequestSchemas, hatt, hne, hresp]
  | some x =>
    refine ⟨{ ep with requestSchemas := some (dupdate base att) }, ?_, rfl, hwin, hkeep⟩
    simp [RouterS.add_route, mergeRequestSchemas, hatt, hne, hresp]

/-- Attached overrides of the endpoint used to instantiate claim C7. -/
def c7att : List (String × Ann) := [("a", Ann.schemaA "A"), ("b", Ann.schemaA "B")]

/-- Caller-supplied schemas used to instantiate claim C7. -/
def c7base : List (String × Ann) := [("b", Ann.schemaA "C"), ("c", Ann.schemaA "D")]

/-- Endpoint with attached overrides for `a` and `b`, used to instantiate
claim C7. -/
def c7ep : HandlerSig := ⟨[], .empty, some c7att, none, "h"⟩

/-- Witness for claim C7: the caller supplies schemas for `b` and `c`; the
attached override wins for `b`, the caller's survives for `c`. -/
theorem add_route_schema_merge_precedence_w :
    ∃ ep2 : HandlerSig,
      RouterS.add_route ⟨[], []⟩ 1 "/p" c7ep ["GET"] none true 200 none (some c7base) =
        .ok { routes := [.route (buildRoute 1 "/p" ep2 ["GET"] [] true 200 none)],
              components := ([] : List Comp) } ∧
      ep2.requestSchemas = some (dupdate c7base c7att) ∧
      (∀ k v, dget c7att k = some v → dget (dupdate c7base c7att) k = some v) ∧
      (∀ k, dget c7att k = none → dget (dupdate c7base c7att) k = dget c7base k) :=
  add_route_schema_merge_precedence ⟨[], []⟩ 1 "/p" c7ep ["GET"] none true 200 none
    c7att c7base rfl (by decide) (by decide)

/-- A successful `add_route` appends exactly one Route, built from the
(mutated) endpoint, the given arguments, and the router's current
component list. -/
theorem add_route_ok_routes (r : RouterS) (fuel : Nat) (path : String) (ep : HandlerSig)
    (methods : List String) (name : Option String) (inS : Bool) (status : Nat)
    (resp : Option Ann) (rs : Option (List (String × Ann))) (r' : RouterS)
    (h : r.add_route fuel path ep methods name inS status resp rs = .ok r') :
    ∃ ep2, r'.routes = r.routes ++
      [.route (buildRoute fuel path ep2 methods r.components inS status name)] := by
  unfold RouterS.add_route at h
  cases hm : mergeRequestSchemas ep rs with
  | error e =>
    rw [hm] at h
    simp at h
  | ok ep1 =>
    rw [hm] at h
    cases hr : ep1.responseSchema with
    | none =>
      simp only [hr, Except.ok.injEq] at h
      exact ⟨{ ep1 with responseSchema := resp }, by rw [← h]⟩
    | some x =>
      simp only [hr, Except.ok.injEq] at h
      exact ⟨ep1, by rw [← h]⟩

/-- Unfolding of the `add_resource` loop: on success the entries appended
after the existing ones carry exactly the composed paths and derived
names, in declaration order. -/
theorem addResourceRoutes_spec :
    ∀ (lrs : List (String × ResourceRoute)) (fuel : Nat) (pfxPath resName : String)
      (r r' : RouterS),
      addResourceRoutes fuel pfxPath resName r lrs = .ok r' →
      ∃ tail : List SEntry,
        r'.routes = r.routes ++ tail ∧
        tail.map SEntry.pathName = lrs.map (fun pr =>
          (pfxPath ++ resName ++ pr.2.meta.path,
            some (match pr.2.meta.name with
              | some n => n
              | none => resName ++ "-" ++ pr.2.handler.fname))) := by
  intro lrs
  induction lrs with
  | nil =>
    intro fuel pfxPath resName r r' h
    simp only [addResourceRoutes, Except.ok.injEq] at h
    exact ⟨[], by rw [← h]; simp, by simp⟩
  | cons pr rest ih =>
    intro fuel pfxPath resName r r' h
    obtain ⟨nm, rr⟩ := pr
    simp only [addResourceRoutes] at h
    split at h
    · simp at h
    · rename_i r1 heq
      obtain ⟨ep2, he⟩ := add_route_ok_routes _ _ _ _ _ _ _ _ _ _ _ heq
      obtain ⟨tail, ht1, ht2⟩ := ih fuel pfxPath resName r1 r' h
      refine ⟨SEntry.route (buildRoute fuel (pfxPath ++ resName ++ rr.meta.path) ep2
          rr.meta.methods r.components rr.meta.kwargs.include_in_schema
          rr.meta.kwargs.status_code
          (some (match rr.meta.name with
            | some n => n
            | none => resName ++ "-" ++ rr.handler.fname))) :: tail, ?_, ?_⟩
      · rw [ht1, he]
        simp
      · simp only [List.map_cons, ht2, SEntry.pathName, buildRoute]

/-- Claim C9: for every resource registered through `add_resource`, each
declared resource route is registered with path exactly
`mount-prefix + resource-name + resource-route-path`, and with name
`"{resource-name}-{handler-name}"` when the resource route declares no
explicit name (the explicit name otherwise). -/
theorem add_resource_paths_and_names :
    ∀ (r : RouterS) (fuel : Nat) (path : String) (res : ResourceObj) (r' : RouterS),
      r.add_resource fuel path res = .ok r' →
      ∃ tail : List SEntry,
        r'.routes = r.routes ++ tail ∧
        tail.map SEntry.pathName = res.routes.map (fun pr =>
          (path ++ res.name ++ pr.2.meta.path,
            some (match pr.2.meta.name with
              | some n => n
              | none => res.name ++ "-" ++ pr.2.handler.fname))) := by
  intro r fuel path res r' h
  exact addResourceRoutes_spec res.routes fuel path res.name r r' h

/-- Resource used to instantiate claim C9: one route without an explicit
name and one with. -/
def c9res : ResourceObj :=
  ⟨"puppy",
   [("list", ⟨⟨"/", none, ["GET"], ⟨true, 200, none, none⟩⟩,
      ⟨[], .empty, none, none, "list"⟩⟩),
    ("create", ⟨⟨"/new", some "create-puppy", ["POST"], ⟨true, 201, none, none⟩⟩,
      ⟨[], .empty, none, none, "create"⟩⟩)]⟩

/-- The router produced by registering `c9res` on an empty router. -/
def c9r1 : RouterS :=
  match RouterS.add_resource ⟨[], []⟩ 1 "/api/" c9res with
  | .ok x => x
  | .error _ => ⟨[], []⟩

/-- Witness for claim C9 at a concrete resource. -/
theorem add_resource_paths_and_names_w :
    ∃ tail : List SEntry,
      c9r1.routes = RouterS.routes ⟨[], []⟩ ++ tail ∧
      tail.map SEntry.pathName = c9res.routes.map (fun pr =>
        ("/api/" ++ c9res.name ++ pr.2.meta.path,
          some (match pr.2.meta.name with
            | some n => n
            | none => c9res.name ++ "-" ++ pr.2.handler.fname))) :=
  add_resource_paths_and_names ⟨[], []⟩ 1 "/api/" c9res c9r1 (by rfl)

/-- Taking the old length back off an appended list leaves the old image
untouched. -/
theorem take_map_append {α β : Type} (f : α → β) (l x : List α) :
    ((l ++ x).map f).take l.length = l.map f := by
  rw [List.map_append, ← List.length_map l f, List.take_left]

/-- Claim C4: a Route's field maps are computed once at construction from
the handler's signature and the router's component list at that moment
(last conjunct), and no later registration — `add_route`,
`add_websocket_route`, `mount`, or `add_resource` — changes the field maps
of the entries already registered (the first conjuncts; `mount` also
leaves the mounted sub-router's own entries untouched). -/
theorem route_fields_construction_stable :
    (∀ (r : RouterS) (fuel : Nat) (path : String) (ep : HandlerSig)
        (methods : List String) (name : Option String) (inS : Bool) (status : Nat)
        (resp : Option Ann) (rs : Option (List (String × Ann))) (r' : RouterS),
      r.add_route fuel path ep methods name inS status resp rs = .ok r' →
      (r'.routes.map SEntry.fieldMaps).take r.routes.length =
        r.routes.map SEntry.fieldMaps) ∧
    (∀ (r : RouterS) (fuel : Nat) (path : String) (ep : HandlerSig)
        (name : Option String),
      ((r.add_websocket_route fuel path ep name).routes.map SEntry.fieldMaps).take
        r.routes.length = r.routes.map SEntry.fieldMaps) ∧
    (∀ (r : RouterS) (path : String) (app : MountAppS) (name : Option String),
      ((r.mount path app name).1.routes.map SEntry.fieldMaps).take r.routes.length =
        r.routes.map SEntry.fieldMaps) ∧
    (∀ (r : RouterS) (path : String) (sub : RouterS) (name : Option String),
      (r.mount path (.routerApp sub) name).2 =
        .routerApp { sub with components := r.components }) ∧
    (∀ (r : RouterS) (fuel : Nat) (path : String) (res : ResourceObj) (r' : RouterS),
      r.add_resource fuel path res = .ok r' →
      (r'.routes.map SEntry.fieldMaps).take r.routes.length =
        r.routes.map SEntry.fieldMaps) ∧
    (∀ (r : RouterS) (fuel : Nat) (path : String) (ep : HandlerSig)
        (methods : List String) (name : Option String) (inS : Bool) (status : Nat)
        (resp : Option Ann) (rs : Option (List (String × Ann))) (r' : RouterS),
      r.add_route fuel path ep methods name inS status resp rs = .ok r' →
      ∃ ep2, r'.routes = r.routes ++
        [.route (buildRoute fuel path ep2 methods r.components inS status name)] ∧
        (buildRoute fuel path ep2 methods r.components inS status name).fields =
          methods.map (fun m =>
            (m, get_fields_from_handler (compilePathParams path) r.components fuel ep2))) := by
  refine ⟨?_, ?_, ?_, ?_, ?_, ?_⟩
  · intro r fuel path ep methods name inS status resp rs r' h
    obtain ⟨ep2, he⟩ := add_route_ok_routes _ _ _ _ _ _ _ _ _ _ _ h
    rw [he, take_map_append]
  · intro r fuel path ep name
    rw [RouterS.add_websocket_route]
    exact take_map_append _ _ _
  · intro r path app name
    cases app with
    | routerApp sub => exact take_map_append _ _ _
    | otherApp t => exact take_map_append _ _ _
  · intro r path sub name
    rfl
  · intro r fuel path res r' h
    obtain ⟨tail, ht, _⟩ := addResourceRoutes_spec res.routes fuel path res.name r r' h
    rw [ht, take_map_append]
  · intro r fuel path ep methods name inS status resp rs r' h
    obtain ⟨ep2, he⟩ := add_route_ok_routes _ _ _ _ _ _ _ _ _ _ _ h
    exact ⟨ep2, he, rfl⟩

/-- Endpoint used to instantiate claim C4. -/
def c4ep : HandlerSig := ⟨[⟨"id", .int, none⟩, ⟨"q", .optStr, none⟩], .empty, none, none, "h"⟩

/-- Router with one registered route, used to instantiate claim C4. -/
def c4r1 : RouterS :=
  match RouterS.add_route ⟨[], []⟩ 1 "/a/\x7bid\x7d" c4ep ["GET"] none true 200 none none with
  | .ok x => x
  | .error _ => ⟨[], []⟩

/-- Router obtained by a second registration on `c4r1`, used to
instantiate claim C4. -/
def c4r2 : RouterS :=
  match RouterS.add_route c4r1 1 "/b" c4ep ["POST"] none true 200 none none with
  | .ok x => x
  | .error _ => c4r1

/-- Witness for claim C4: a second `add_route` (and an
`add_websocket_route`, a `mount`, and an `add_resource`) leave the first
route's field maps in place, and the appended route's field maps come from
the construction-time component list. -/
theorem route_fields_construction_stable_w :
    ((c4r2.routes.map SEntry.fieldMaps).take c4r1.routes.length =
      c4r1.routes.map SEntry.fieldMaps) ∧
    (((c4r1.add_websocket_route 1 "/ws" c4ep none).routes.map SEntry.fieldMaps).take
      c4r1.routes.length = c4r1.routes.map SEntry.fieldMaps) ∧
    (((c4r1.mount "/m/" (.routerApp ⟨[], []⟩) none).1.routes.map SEntry.fieldMaps).take
      c4r1.routes.length = c4r1.routes.map SEntry.fieldMaps) ∧
    ((c4r1.mount "/m/" (.routerApp ⟨[], []⟩) none).2 =
      .routerApp { RouterS.mk [] [] with components := c4r1.components }) ∧
    (∃ ep2, c4r2.routes = c4r1.routes ++
      [.route (buildRoute 1 "/b" ep2 ["POST"] c4r1.components true 200 none)] ∧
      (buildRoute 1 "/b" ep2 ["POST"] c4r1.components true 200 none).fields =
        ["POST"].map (fun m =>
          (m, get_fields_from_handler (compilePathParams "/b") c4r1.components 1 ep2))) :=
  ⟨route_fields_construction_stable.1 c4r1 1 "/b" c4ep ["POST"] none true 200 none none
      c4r2 (by rfl),
   route_fields_construction_stable.2.1 c4r1 1 "/ws" c4ep none,
   route_fields_construction_stable.2.2.1 c4r1 "/m/" (.routerApp ⟨[], []⟩) none,
   route_fields_construction_stable.2.2.2.1 c4r1 "/m/" ⟨[], []⟩ none,
   route_fields_construction_stable.2.2.2.2.2 c4r1 1 "/b" c4ep ["POST"] none true 200
      none none c4r2 (by rfl)⟩

end Flama
